import Mathlib

/-!
Shallow embedding of the core research pipeline of src/app.py: the three
functions fetch_threads, summarise_threads and generate_report together with
the library helpers they rely on.  External collaborators (the Reddit listing
and the chat-completion endpoint) are passed in as explicit parameters, and
raised Python exceptions are modelled with Except.
-/

/-- A decoded JSON value, as produced by json.loads.  Numbers are modelled as
integers, which covers every value the claims touch; objects keep their field
list (json.loads yields unique keys, lookups below take the first match). -/
inductive Json where
  | null
  | bool (b : Bool)
  | num (n : Int)
  | str (s : String)
  | arr (elems : List Json)
  | obj (fields : List (String × Json))

/-- The Python exceptions the embedded code can raise. -/
inductive PyError where
  | attributeError
  | valueError
  | keyError
deriving DecidableEq

/-- One chat message sent to the language model. -/
structure Msg where
  role : String
  content : String
deriving DecidableEq

/-- Python string slicing s[:n], which cuts at code-point granularity. -/
def pySlice (s : String) (n : Nat) : String := ⟨s.data.take n⟩

/-- Python sep.join(xs). -/
def pyJoin (sep : String) : List String → String
  | [] => ""
  | [x] => x
  | x :: y :: rest => x ++ sep ++ pyJoin sep (y :: rest)

mutual

/-- Python repr of a decoded JSON value (strings quoted with \x27). -/
def pyRepr : Json → String
  | .null => "None"
  | .bool true => "True"
  | .bool false => "False"
  | .num n => toString n
  | .str s => "\x27" ++ s ++ "\x27"
  | .arr elems => "[" ++ pyJoin ", " (pyReprList elems) ++ "]"
  | .obj fields => "\x7b" ++ pyJoin ", " (pyReprFields fields) ++ "\x7d"

/-- Python repr of each element of a JSON array. -/
def pyReprList : List Json → List String
  | [] => []
  | v :: vs => pyRepr v :: pyReprList vs

/-- Python repr of each key-value pair of a JSON object. -/
def pyReprFields : List (String × Json) → List String
  | [] => []
  | kv :: kvs => ("\x27" ++ kv.1 ++ "\x27: " ++ pyRepr kv.2) :: pyReprFields kvs

end

/-- Python str() of a decoded JSON value: the string itself for strings, and
the repr for every other value, as the f-string interpolation applies it. -/
def pyStr : Json → String
  | .str s => s
  | v => pyRepr v

/-- Python user_prompt.strip(): removes leading and trailing whitespace. -/
def pyStrip (s : String) : String :=
  ⟨((s.data.dropWhile Char.isWhitespace).reverse.dropWhile Char.isWhitespace).reverse⟩

/-- Python str.title restricted to its ASCII behaviour: a letter is uppercased
when it follows a non-letter and lowercased otherwise. -/
def pyTitleAux : Bool → List Char → List Char
  | _, [] => []
  | prevAlpha, c :: cs =>
      (if c.isAlpha then (if prevAlpha then c.toLower else c.toUpper) else c)
        :: pyTitleAux c.isAlpha cs

/-- Python genre.title(). -/
def pyTitle (s : String) : String := ⟨pyTitleAux false s.data⟩

/-- Civil date (year, month, day) of a day count relative to 1970-01-01,
using truncating integer division as the algorithm requires. -/
def civilFromDays (z0 : Int) : Int × Int × Int :=
  let z := z0 + 719468
  let era : Int := Int.tdiv (if 0 ≤ z then z else z - 146096) 146097
  let doe : Int := z - era * 146097
  let yoe : Int := Int.tdiv (doe - Int.tdiv doe 1460 + Int.tdiv doe 36524 - Int.tdiv doe 146096) 365
  let y : Int := yoe + era * 400
  let doy : Int := doe - (365 * yoe + Int.tdiv yoe 4 - Int.tdiv yoe 100)
  let mp : Int := Int.tdiv (5 * doy + 2) 153
  let d : Int := doy - Int.tdiv (153 * mp + 2) 5 + 1
  let m : Int := mp + (if mp < 10 then 3 else -9)
  (y + (if m ≤ 2 then 1 else 0), m, d)

/-- Zero-padded two-digit rendering of a month or day. -/
def pad2 (n : Int) : String := if n < 10 then "0" ++ toString n else toString n

/-- Zero-padded four-digit rendering of a year. -/
def pad4 (n : Int) : String :=
  if n < 10 then "000" ++ toString n
  else if n < 100 then "00" ++ toString n
  else if n < 1000 then "0" ++ toString n
  else toString n

/-- The strftime rendering %Y-%m-%d of a UTC timestamp in seconds, with the
floor semantics of datetime.fromtimestamp for negative instants. -/
def formatUtcDate (ts : Int) : String :=
  let days := Int.fdiv ts 86400
  let c := civilFromDays days
  pad4 c.1 ++ "-" ++ pad2 c.2.1 ++ "-" ++ pad2 c.2.2

/-- Model of the method call summaries.get(key, default): succeeds on a JSON
object, raises AttributeError on any other decoded value. -/
def Json.dictGet : Json → String → Json → Except PyError Json
  | .obj fields, key, dflt =>
      .ok (((fields.find? fun p => p.1 == key).map Prod.snd).getD dflt)
  | _, _, _ => .error .attributeError

/-- Total lookup on a JSON value, returning the default when the value is not
an object; it describes the successful executions of Json.dictGet. -/
def objGet (m : Json) (key : String) (dflt : Json) : Json :=
  match m with
  | .obj fields => ((fields.find? fun p => p.1 == key).map Prod.snd).getD dflt
  | _ => dflt

/-- One thread record as built by fetch_threads.  The summary key is absent
until summarise_threads assigns it, which the Option models. -/
structure Thread where
  id : String
  title : String
  body : String
  comments : String
  url : String
  created : String
  summary : Option Json
deriving Inhabited

/-- One raw submission as delivered by the subreddit listing, after
replace_more(limit=None) has expanded every comment container:
commentBodies are the bodies of post.comments.list(). -/
structure RawItem where
  id : String
  title : String
  selftext : Option String
  commentBodies : List String
  url : String
  created_utc : Int

/-- The record literal appended for one submission inside fetch_threads:
comments are the space-joined bodies of the expanded comment forest, body is
post.selftext with None replaced by the empty string, created is the
formatted UTC date of post.created_utc. -/
def rawToThread (post : RawItem) : Thread :=
  { id := post.id
    title := post.title
    body := post.selftext.getD ""
    comments := pyJoin " " post.commentBodies
    url := post.url
    created := formatUtcDate post.created_utc
    summary := none }

/-- fetch_threads: iterates over the listing the platform returns for the
requested subreddit and limit, appends one record per submission and invokes
the progress callback once per submission; the result pairs the records in
listing order with the number of callback invocations. -/
def fetch_threads : List RawItem → List Thread × Nat
  | [] => ([], 0)
  | post :: rest =>
      let r := fetch_threads rest
      (rawToThread post :: r.1, r.2 + 1)

/-- The bounded excerpt summarise_threads sends for one thread: the full
title, the first 4000 characters of the body and the first 6000 characters of
the concatenated comment text. -/
def excerpt (t : Thread) : String :=
  t.title ++ "\n\n" ++ pySlice t.body 4000 ++ "\n\nComments:\n" ++ pySlice t.comments 6000

/-- The aggregated trace of one summarise_threads run: the enriched thread
list, the payload of each model request, the progress fractions, the status
and sample markdown writes, and the timer callback count. -/
structure SummariseOutput where
  threads : List Thread
  calls : List (List (String × String))
  progress : List ℚ
  statusMsgs : List String
  sampleMsgs : List String
  timerCalls : Nat

/-- The for-loop over one batch: each thread receives
summaries.get(thread-id, empty-object) as its summary.  A non-object
summaries value raises AttributeError at the first thread of the batch,
which Except propagates. -/
def assignSummaries (summaries : Json) : List Thread → Except PyError (List Thread)
  | [] => .ok []
  | t :: ts =>
      match summaries.dictGet t.id (Json.obj []) with
      | .error e => .error e
      | .ok s =>
          match assignSummaries summaries ts with
          | .error e => .error e
          | .ok rest => .ok ({ t with summary := some s } :: rest)

/-- The same batch assignment as a total function, valid once the summaries
value is known to be an object. -/
def assignPure (summaries : Json) (ts : List Thread) : List Thread :=
  ts.map fun t => { t with summary := some (objGet summaries t.id (Json.obj [])) }

/-- For each batch index, the thread update the loop applies to the members
of that batch. -/
def withSummaryFrom (resp : Nat → Option Json) (j : Nat) (t : Thread) : Thread :=
  { t with summary := some (objGet ((resp j).getD (Json.obj [])) t.id (Json.obj [])) }

/-- The consecutive slices threads[i:i+batch] visited by the loop
for i in range(0, total, batch), for a positive batch size. -/
def chunksOf : Nat → List α → List (List α)
  | _, [] => []
  | 0, _ :: _ => []
  | B + 1, a :: l => (a :: l).take (B + 1) :: chunksOf (B + 1) ((a :: l).drop (B + 1))
termination_by _ l => l.length
decreasing_by
  simp [List.length_drop]
  omega

/-- The fractional progress values done/total reported after each batch,
starting from a given completed count. -/
def progressOf (total : Nat) : List (List Thread) → Nat → List ℚ
  | [], _ => []
  | c :: rest, done =>
      (((done + c.length : Nat) : ℚ) / (total : ℚ)) :: progressOf total rest (done + c.length)

/-- The summarisation loop over the precomputed batches.  For batch k the
excerpt payload keyed by thread id is sent, the decoded response is resp k
(none standing for a raised decode exception, which the try/except absorbs
leaving summaries as the empty mapping), the per-thread summaries are
assigned, then progress, status markdown, a sampled title and the timer tick
are recorded.  Python mutates the shared list in place; here every batch
returns its updated slice and an exception loses the partial trace, which no
claim observes.  The random sample reads only the title of a thread of the
full list, a field no mutation touches, so it is drawn from the original
list via the sampled index rng k modulo the list length. -/
def processBatches (resp : Nat → Option Json) (rng : Nat → Nat)
    (allThreads : List Thread) (total : Nat) :
    List (List Thread) → Nat → Nat → Except PyError SummariseOutput
  | [], _, _ => .ok (SummariseOutput.mk [] [] [] [] [] 0)
  | chunk :: rest, k, done =>
      let payload := chunk.map fun t => (t.id, excerpt t)
      let status := "**Summarising:** " ++ pySlice (chunk.headD default).title 80 ++ "…"
      let sample := "*Random thread:* **" ++
        pySlice ((allThreads.getD (rng k % total) default).title) 90 ++ "**"
      let summaries := (resp k).getD (Json.obj [])
      match assignSummaries summaries chunk with
      | .error e => .error e
      | .ok updated =>
          match processBatches resp rng allThreads total rest (k + 1) (done + chunk.length) with
          | .error e => .error e
          | .ok out =>
              .ok (SummariseOutput.mk (updated ++ out.threads) (payload :: out.calls)
                ((((done + chunk.length : Nat) : ℚ) / (total : ℚ)) :: out.progress)
                (status :: out.statusMsgs) (sample :: out.sampleMsgs) (out.timerCalls + 1))

/-- summarise_threads: a zero batch size makes range(0, total, 0) raise
ValueError; otherwise the batches threads[i:i+batch] are processed strictly
in order and the status slot finally receives the completion message.  The
function resp gives the decoded model response per batch index and rng the
sampled index per batch. -/
def summarise_threads (threads : List Thread) (resp : Nat → Option Json)
    (rng : Nat → Nat) (batch : Nat) : Except PyError SummariseOutput :=
  if batch = 0 then .error .valueError
  else
    match processBatches resp rng threads threads.length (chunksOf batch threads) 0 0 with
    | .error e => .error e
    | .ok out =>
        .ok (SummariseOutput.mk out.threads out.calls out.progress
          (out.statusMsgs ++ ["**Summarising complete!**"]) out.sampleMsgs out.timerCalls)

/-- Total mirror of processBatches, valid for responses in the two modes the
handler anticipates. -/
def pureBatches (resp : Nat → Option Json) (rng : Nat → Nat)
    (allThreads : List Thread) (total : Nat) :
    List (List Thread) → Nat → Nat → SummariseOutput
  | [], _, _ => SummariseOutput.mk [] [] [] [] [] 0
  | chunk :: rest, k, done =>
      let out := pureBatches resp rng allThreads total rest (k + 1) (done + chunk.length)
      SummariseOutput.mk
        (assignPure ((resp k).getD (Json.obj [])) chunk ++ out.threads)
        ((chunk.map fun t => (t.id, excerpt t)) :: out.calls)
        ((((done + chunk.length : Nat) : ℚ) / (total : ℚ)) :: out.progress)
        (("**Summarising:** " ++ pySlice (chunk.headD default).title 80 ++ "…") :: out.statusMsgs)
        (("*Random thread:* **" ++
            pySlice ((allThreads.getD (rng k % total) default).title) 90 ++ "**") :: out.sampleMsgs)
        (out.timerCalls + 1)

/-- Total mirror of summarise_threads for a positive batch size and
well-formed responses. -/
def pureSummarise (threads : List Thread) (resp : Nat → Option Json)
    (rng : Nat → Nat) (batch : Nat) : SummariseOutput :=
  let out := pureBatches resp rng threads threads.length (chunksOf batch threads) 0 0
  SummariseOutput.mk out.threads out.calls out.progress
    (out.statusMsgs ++ ["**Summarising complete!**"]) out.sampleMsgs out.timerCalls

/-- A decoded response in one of the two modes the batch handler anticipates:
a decode failure, or a JSON object as the instruction requests. -/
def RespOk (o : Option Json) : Prop := o = none ∨ ∃ fields, o = some (Json.obj fields)

/-- The trace of one generate_report run: the calls made, the returned report
text and the timer callback count. -/
structure ReportOutput where
  calls : List (List Msg)
  report : String
  timerCalls : Nat

/-- The per-thread corpus lines of generate_report, in thread order.  For
each thread the line interpolates the title, summary.get(gist-key, blank)
rendered by str, and the markdown citation with the url.  A record without
the summary key raises KeyError and a non-object summary value raises
AttributeError, both aborting the enclosing run. -/
def corpusEntries : List Thread → Except PyError (List String)
  | [] => .ok []
  | t :: ts =>
      match t.summary with
      | none => .error .keyError
      | some s =>
          match s.dictGet "gist" (Json.str "") with
          | .error e => .error e
          | .ok g =>
              match corpusEntries ts with
              | .error e => .error e
              | .ok rest =>
                  .ok ((t.title ++ " – " ++ pyStr g ++ " [URL](" ++ t.url ++ ")") :: rest)

/-- Total corpus line of a thread whose summary is present and an object. -/
def corpusLine (t : Thread) : String :=
  t.title ++ " – " ++
    pyStr (objGet ((t.summary).getD (Json.obj [])) "gist" (Json.str "")) ++
    " [URL](" ++ t.url ++ ")"

/-- The numbered question block Q1., Q2., ... of the synthesis prompt. -/
def qBlock (questions : List String) : String :=
  pyJoin "\n" (questions.enum.map fun p => "Q" ++ toString (p.1 + 1) ++ ". " ++ p.2)

/-- The built-in report instruction, used when the override is blank. -/
def defaultReportInstruction (genre : String) : String :=
  "You are a senior analyst and researcher assisting business executives who are exploring the " ++
  "**" ++ pyTitle genre ++ "** topic. You have mined Reddit community and audience discussions. " ++
  "First, give a one-paragraph snapshot of overall audience sentiment for this topic. " ++
  "Then, answer each research question in its own subsection (≤2 paragraphs each), " ++
  "adding citations in [Title](URL) form right after every key evidence point. " ++
  "Finish with a bold **list of ACTIONABLE INSIGHTS** lists 3 points for business executives (what to emphasise / avoid in a script), each with a citation."

/-- The instruction used when the user override is non-blank. -/
def overrideReportInstruction (genre : String) (user_prompt : String) : String :=
  "You are doing research on: **" ++ pyTitle genre ++ "** topic. " ++ pyStrip user_prompt

/-- The instruction selection of generate_report: the built-in text when the
stripped override is empty, the override text otherwise. -/
def reportPrompt (genre : String) (user_prompt : String) : String :=
  if pyStrip user_prompt = "" then defaultReportInstruction genre
  else overrideReportInstruction genre user_prompt

/-- generate_report: builds the corpus by joining the per-thread lines with
blank lines and truncating the joined string to 15000 characters, builds the
numbered question block and the instruction (default when the stripped
override is empty), then issues exactly one model call with the three
messages and returns the model text verbatim, ticking the timer once. -/
def generate_report (genre : String) (threads : List Thread) (questions : List String)
    (user_prompt : String) (complete : List Msg → String) : Except PyError ReportOutput :=
  match corpusEntries threads with
  | .error e => .error e
  | .ok entries =>
      let corpus := pySlice (pyJoin "\n\n" entries) 15000
      let q_block := qBlock questions
      let prompt := reportPrompt genre user_prompt
      let msgs := [Msg.mk "system" prompt,
        Msg.mk "assistant" ("CORPUS (" ++ toString threads.length ++ " threads):\n" ++ corpus),
        Msg.mk "user" q_block]
      .ok (ReportOutput.mk [msgs] (complete msgs) 1)

/-- The three messages of the one synthesis call, described through the total
corpus lines; generate_report sends exactly these whenever every thread
carries an object summary. -/
def reportMsgs (genre : String) (threads : List Thread) (questions : List String)
    (user_prompt : String) : List Msg :=
  [Msg.mk "system" (reportPrompt genre user_prompt),
   Msg.mk "assistant" ("CORPUS (" ++ toString threads.length ++ " threads):\n" ++
     pySlice (pyJoin "\n\n" (threads.map corpusLine)) 15000),
   Msg.mk "user" (qBlock questions)]

/-- A concrete fetched thread fixture for the witnesses. -/
def exThreadA : Thread :=
  { id := "a", title := "TitleA", body := "bodyA", comments := "comA",
    url := "urlA", created := "2024-01-01", summary := none }

/-- A second concrete fetched thread fixture. -/
def exThreadB : Thread :=
  { id := "b", title := "TitleB", body := "bodyB", comments := "comB",
    url := "urlB", created := "2024-01-02", summary := none }

/-- A concrete thread fixture carrying an empty object summary. -/
def exDone : Thread := { exThreadA with summary := some (Json.obj []) }

/-- A twelve-thread fixture. -/
def exTwelve : List Thread := List.replicate 12 exThreadA

/-- A concrete raw submission fixture. -/
def exRaw1 : RawItem :=
  { id := "r1", title := "R1", selftext := some "s1",
    commentBodies := ["c1", "c2"], url := "u1", created_utc := 1700000000 }

/-- A second, older raw submission fixture. -/
def exRaw2 : RawItem :=
  { id := "r2", title := "R2", selftext := none,
    commentBodies := [], url := "u2", created_utc := 1600000000 }

/-! ### Library lemmas about the string and list helpers -/

theorem string_data_append (a b : String) : (a ++ b).data = a.data ++ b.data := rfl

theorem pySlice_data (s : String) (n : Nat) : (pySlice s n).data = s.data.take n := rfl

theorem pySlice_length (s : String) (n : Nat) : (pySlice s n).length = min n s.length :=
  List.length_take n s.data

theorem pySlice_length_le (s : String) (n : Nat) : (pySlice s n).length ≤ n := by
  simp [pySlice_length]

theorem pySlice_data_prefix (s : String) (n : Nat) : (pySlice s n).data <+: s.data :=
  List.take_prefix n s.data

theorem pySlice_of_length_le (s : String) (n : Nat) (h : s.length ≤ n) :
    pySlice s n = s := by
  cases s with
  | mk d =>
      simp only [pySlice]
      exact congrArg String.mk (List.take_of_length_le h)

theorem prefix_append_left {α : Type} (c : List α) {a b : List α} (h : a <+: b) :
    c ++ a <+: c ++ b := by
  obtain ⟨t, ht⟩ := h
  exact ⟨t, by rw [List.append_assoc, ht]⟩

theorem pyJoin_take_prefix (sep : String) :
    ∀ (es : List String) (n : Nat), (pyJoin sep (es.take n)).data <+: (pyJoin sep es).data := by
  intro es
  induction es with
  | nil => intro n; simp [pyJoin]
  | cons e es2 ih =>
      intro n
      match n, es2 with
      | 0, _ => simpa [pyJoin] using List.nil_prefix
      | m + 1, [] => simp [pyJoin]
      | 1, f :: es3 =>
          simp only [List.take, pyJoin, string_data_append]
          simpa [List.append_assoc] using List.prefix_append e.data _
      | m + 2, f :: es3 =>
          have step : (pyJoin sep ((f :: es3).take (m + 1))).data <+: (pyJoin sep (f :: es3)).data :=
            ih (m + 1)
          have : (f :: es3).take (m + 1) = f :: es3.take m := rfl
          rw [this] at step
          simp only [List.take, pyJoin, string_data_append, List.append_assoc]
          exact prefix_append_left _ (prefix_append_left _ step)

/-! ### Lemmas about the batch slicing -/

theorem chunksOf_nil {α : Type} (B : Nat) : chunksOf B ([] : List α) = [] := by
  cases B <;> simp [chunksOf]

theorem chunksOf_cons {α : Type} (B : Nat) (a : α) (l : List α) :
    chunksOf (B + 1) (a :: l) =
      (a :: l).take (B + 1) :: chunksOf (B + 1) ((a :: l).drop (B + 1)) := by
  simp [chunksOf]

theorem chunksOf_ne_nil_shape {α : Type} (B : Nat) (l : List α) (hl : l ≠ []) :
    chunksOf (B + 1) l = l.take (B + 1) :: chunksOf (B + 1) (l.drop (B + 1)) := by
  cases l with
  | nil => exact absurd rfl hl
  | cons a t => exact chunksOf_cons B a t

theorem chunksOf_flatten {α : Type} (B : Nat) (l : List α) :
    (chunksOf (B + 1) l).flatten = l := by
  cases l with
  | nil => simp [chunksOf_nil]
  | cons a t =>
      rw [chunksOf_cons, List.flatten_cons, chunksOf_flatten B ((a :: t).drop (B + 1))]
      exact List.take_append_drop (B + 1) (a :: t)
termination_by l.length
decreasing_by
  simp [List.length_drop]
  omega

theorem ceil_div_step (B n : Nat) :
    (n + 1 - (B + 1) + B) / (B + 1) + 1 = (n + 1 + B) / (B + 1) := by
  have e2 : n + 1 + B = n + (B + 1) := by omega
  rcases Nat.lt_or_ge n B with h | h
  · have e1 : n + 1 - (B + 1) + B = B := by omega
    rw [e1, e2, Nat.div_eq_of_lt (by omega), Nat.add_div_right _ (Nat.succ_pos B),
      Nat.div_eq_of_lt (by omega)]
  · have e1 : n + 1 - (B + 1) + B = n := by omega
    rw [e1, e2, Nat.add_div_right _ (Nat.succ_pos B)]

theorem chunksOf_length {α : Type} (B : Nat) (l : List α) :
    (chunksOf (B + 1) l).length = (l.length + B) / (B + 1) := by
  cases l with
  | nil =>
      simp only [chunksOf_nil, List.length_nil, Nat.zero_add]
      exact (Nat.div_eq_of_lt (by omega)).symm
  | cons a t =>
      rw [chunksOf_cons]
      simp only [List.length_cons, chunksOf_length B ((a :: t).drop (B + 1)), List.length_drop,
        List.length_cons]
      exact ceil_div_step B t.length
termination_by l.length
decreasing_by
  simp [List.length_drop]
  omega

theorem chunksOf_mem_length {α : Type} (B : Nat) (l : List α) :
    ∀ c ∈ chunksOf (B + 1) l, c.length ≤ B + 1 := by
  cases l with
  | nil => intro c hc; rw [chunksOf_nil] at hc; cases hc
  | cons a t =>
      intro c hc
      rw [chunksOf_cons] at hc
      rcases List.mem_cons.mp hc with h | h
      · subst h
        simpa using List.length_take_le (B + 1) (a :: t)
      · exact chunksOf_mem_length B ((a :: t).drop (B + 1)) c h
termination_by l.length
decreasing_by
  simp [List.length_drop]
  omega

theorem chunksOf_mem_ne_nil {α : Type} (B : Nat) (l : List α) :
    ∀ c ∈ chunksOf (B + 1) l, c ≠ [] := by
  cases l with
  | nil => intro c hc; rw [chunksOf_nil] at hc; cases hc
  | cons a t =>
      intro c hc
      rw [chunksOf_cons] at hc
      rcases List.mem_cons.mp hc with h | h
      · subst h; simp
      · exact chunksOf_mem_ne_nil B ((a :: t).drop (B + 1)) c h
termination_by l.length
decreasing_by
  simp [List.length_drop]
  omega

theorem chunksOf_dropLast_length {α : Type} (B : Nat) (l : List α) :
    ∀ c ∈ (chunksOf (B + 1) l).dropLast, c.length = B + 1 := by
  cases l with
  | nil => intro c hc; rw [chunksOf_nil] at hc; cases hc
  | cons a t =>
      intro c hc
      rw [chunksOf_cons] at hc
      by_cases hrest : chunksOf (B + 1) ((a :: t).drop (B + 1)) = []
      · rw [hrest] at hc
        cases hc
      · rw [List.dropLast_cons_of_ne_nil hrest] at hc
        rcases List.mem_cons.mp hc with h | h
        · subst h
          have hlen : B + 1 ≤ (a :: t).length := by
            by_contra hcon
            have hdrop : (a :: t).drop (B + 1) = [] :=
              List.drop_eq_nil_of_le (by omega)
            rw [hdrop, chunksOf_nil] at hrest
            exact hrest rfl
          simpa using Nat.min_eq_left hlen
        · exact chunksOf_dropLast_length B ((a :: t).drop (B + 1)) c h
termination_by l.length
decreasing_by
  simp [List.length_drop]
  omega

/-! ### From the exception-aware loop to its total mirror -/

theorem dictGet_obj (fields : List (String × Json)) (key : String) (dflt : Json) :
    (Json.obj fields).dictGet key dflt = .ok (objGet (Json.obj fields) key dflt) := rfl

theorem dictGet_not_obj (v : Json) (hv : ∀ fields, v ≠ Json.obj fields)
    (key : String) (dflt : Json) : v.dictGet key dflt = .error .attributeError := by
  cases v <;> first | rfl | exact absurd rfl (hv _)

theorem objGet_empty (key : String) (dflt : Json) : objGet (Json.obj []) key dflt = dflt := rfl

theorem assignSummaries_obj (fields : List (String × Json)) (ts : List Thread) :
    assignSummaries (Json.obj fields) ts = .ok (assignPure (Json.obj fields) ts) := by
  induction ts with
  | nil => rfl
  | cons t ts ih =>
      simp only [assignSummaries, dictGet_obj, ih, assignPure, List.map_cons]

theorem respOk_getD {o : Option Json} (h : RespOk o) :
    ∃ fields, o.getD (Json.obj []) = Json.obj fields := by
  rcases h with h | ⟨fs, h⟩
  · exact ⟨[], by simp [h]⟩
  · exact ⟨fs, by simp [h]⟩

theorem assignPure_eq (resp : Nat → Option Json) (k : Nat) (ts : List Thread) :
    assignPure ((resp k).getD (Json.obj [])) ts = ts.map (withSummaryFrom resp k) := rfl

theorem processBatches_eq (resp : Nat → Option Json) (rng : Nat → Nat)
    (allThreads : List Thread) (total : Nat) (hresp : ∀ j, RespOk (resp j)) :
    ∀ (chunks : List (List Thread)) (k done : Nat),
      processBatches resp rng allThreads total chunks k done =
        .ok (pureBatches resp rng allThreads total chunks k done) := by
  intro chunks
  induction chunks with
  | nil => intro k done; rfl
  | cons chunk rest ih =>
      intro k done
      obtain ⟨fs, hfs⟩ := respOk_getD (hresp k)
      simp only [processBatches, pureBatches, hfs, assignSummaries_obj, ih]

theorem summarise_threads_eq (threads : List Thread) (resp : Nat → Option Json)
    (rng : Nat → Nat) (B : Nat) (hresp : ∀ j, RespOk (resp j)) :
    summarise_threads threads resp rng (B + 1) =
      .ok (pureSummarise threads resp rng (B + 1)) := by
  unfold summarise_threads pureSummarise
  rw [if_neg (Nat.succ_ne_zero B),
    processBatches_eq resp rng threads threads.length hresp (chunksOf (B + 1) threads) 0 0]

/-! ### Shape of the total mirror -/

theorem pureBatches_calls (resp : Nat → Option Json) (rng : Nat → Nat)
    (allThreads : List Thread) (total : Nat) :
    ∀ (chunks : List (List Thread)) (k done : Nat),
      (pureBatches resp rng allThreads total chunks k done).calls =
        chunks.map fun c => c.map fun t => (t.id, excerpt t) := by
  intro chunks
  induction chunks with
  | nil => intro k done; rfl
  | cons chunk rest ih => intro k done; simp only [pureBatches, ih, List.map_cons]

theorem pureBatches_progress (resp : Nat → Option Json) (rng : Nat → Nat)
    (allThreads : List Thread) (total : Nat) :
    ∀ (chunks : List (List Thread)) (k done : Nat),
      (pureBatches resp rng allThreads total chunks k done).progress =
        progressOf total chunks done := by
  intro chunks
  induction chunks with
  | nil => intro k done; rfl
  | cons chunk rest ih => intro k done; simp only [pureBatches, progressOf, ih]

theorem pureBatches_timer (resp : Nat → Option Json) (rng : Nat → Nat)
    (allThreads : List Thread) (total : Nat) :
    ∀ (chunks : List (List Thread)) (k done : Nat),
      (pureBatches resp rng allThreads total chunks k done).timerCalls = chunks.length := by
  intro chunks
  induction chunks with
  | nil => intro k done; rfl
  | cons chunk rest ih => intro k done; simp only [pureBatches, ih, List.length_cons]

theorem pureBatches_threads_length (resp : Nat → Option Json) (rng : Nat → Nat)
    (allThreads : List Thread) (total : Nat) :
    ∀ (chunks : List (List Thread)) (k done : Nat),
      (pureBatches resp rng allThreads total chunks k done).threads.length =
        chunks.flatten.length := by
  intro chunks
  induction chunks with
  | nil => intro k done; rfl
  | cons chunk rest ih =>
      intro k done
      simp only [pureBatches, List.flatten_cons, List.length_append, ih, assignPure,
        List.length_map]

/-- Position i of the thread list belongs to batch i / B, and the loop
rewrites exactly its summary field from the response of that batch. -/
theorem pureBatches_threads_get (B : Nat) (resp : Nat → Option Json) (rng : Nat → Nat)
    (allThreads : List Thread) (total : Nat) (l : List Thread) (k done : Nat) :
    ∀ i, i < l.length →
      (pureBatches resp rng allThreads total (chunksOf (B + 1) l) k done).threads[i]? =
        (l[i]?).map (withSummaryFrom resp (k + i / (B + 1))) := by
  cases l with
  | nil => intro i hi; simp at hi
  | cons a t =>
      intro i hi
      simp only [List.length_cons] at hi
      rw [chunksOf_cons]
      simp only [pureBatches]
      rcases Nat.lt_or_ge i (B + 1) with hlt | hge
      · have hfirst : i < (assignPure ((resp k).getD (Json.obj [])) ((a :: t).take (B + 1))).length := by
          simp only [assignPure, List.length_map, List.length_take, List.length_cons]
          omega
        rw [List.getElem?_append_left hfirst, assignPure_eq, List.getElem?_map,
          List.getElem?_take_of_lt hlt, Nat.div_eq_of_lt hlt, Nat.add_zero]
      · have hlen : (assignPure ((resp k).getD (Json.obj [])) ((a :: t).take (B + 1))).length = B + 1 := by
          simp only [assignPure, List.length_map, List.length_take, List.length_cons]
          omega
        rw [List.getElem?_append_right (by rw [hlen]; exact hge), hlen]
        have hi2 : i - (B + 1) < ((a :: t).drop (B + 1)).length := by
          simp only [List.length_drop, List.length_cons]
          omega
        rw [pureBatches_threads_get B resp rng allThreads total ((a :: t).drop (B + 1))
          (k + 1) _ (i - (B + 1)) hi2]
        rw [List.getElem?_drop]
        have hidx : B + 1 + (i - (B + 1)) = i := by omega
        rw [hidx]
        have harith : k + 1 + (i - (B + 1)) / (B + 1) = k + i / (B + 1) := by
          have h2 : (i - (B + 1)) + (B + 1) = i := by omega
          have h3 := Nat.add_div_right (i - (B + 1)) (Nat.succ_pos B)
          rw [h2] at h3
          rw [h3]
          ring
        rw [harith]
termination_by l.length
decreasing_by
  simp [List.length_drop]
  omega

theorem progressOf_length (total : Nat) :
    ∀ (chunks : List (List Thread)) (done : Nat),
      (progressOf total chunks done).length = chunks.length := by
  intro chunks
  induction chunks with
  | nil => intro done; rfl
  | cons c rest ih => intro done; simp only [progressOf, List.length_cons, ih]

theorem progressOf_cons (total done : Nat) (c : List Thread) (rest : List (List Thread)) :
    progressOf total (c :: rest) done =
      (((done + c.length : Nat) : ℚ) / (total : ℚ)) :: progressOf total rest (done + c.length) :=
  rfl

theorem progressOf_get (total : Nat) :
    ∀ (chunks : List (List Thread)) (done j : Nat), j < chunks.length →
      (progressOf total chunks done)[j]? =
        some ((((done + (chunks.take (j + 1)).flatten.length : Nat) : ℚ)) / (total : ℚ)) := by
  intro chunks
  induction chunks with
  | nil => intro done j hj; simp at hj
  | cons c rest ih =>
      intro done j hj
      rw [progressOf_cons]
      match j with
      | 0 =>
          rw [List.getElem?_cons_zero]
          have he : ((c :: rest).take (0 + 1)).flatten.length = c.length := by simp
          rw [he]
      | m + 1 =>
          rw [List.getElem?_cons_succ,
            ih (done + c.length) m (by simp only [List.length_cons] at hj; omega)]
          have he2 : ((c :: rest).take (m + 1 + 1)).flatten.length
              = c.length + (rest.take (m + 1)).flatten.length := by
            simp [List.take_succ_cons, List.flatten_cons]
          rw [he2, ← Nat.add_assoc done c.length ((rest.take (m + 1)).flatten.length)]

theorem corpusEntries_ok :
    ∀ ts : List Thread, (∀ t ∈ ts, ∃ fs, t.summary = some (Json.obj fs)) →
      corpusEntries ts = .ok (ts.map corpusLine) := by
  intro ts
  induction ts with
  | nil => intro h; rfl
  | cons t ts ih =>
      intro h
      obtain ⟨fs, hfs⟩ := h t (List.mem_cons_self t ts)
      have htail := ih fun u hu => h u (List.mem_cons_of_mem t hu)
      simp only [corpusEntries, hfs, dictGet_obj, htail, List.map_cons, corpusLine,
        Option.getD_some]

theorem pureSummarise_threads (threads : List Thread) (resp : Nat → Option Json)
    (rng : Nat → Nat) (B : Nat) :
    (pureSummarise threads resp rng B).threads =
      (pureBatches resp rng threads threads.length (chunksOf B threads) 0 0).threads := rfl

theorem pureSummarise_calls (threads : List Thread) (resp : Nat → Option Json)
    (rng : Nat → Nat) (B : Nat) :
    (pureSummarise threads resp rng B).calls =
      (pureBatches resp rng threads threads.length (chunksOf B threads) 0 0).calls := rfl

theorem pureSummarise_progress (threads : List Thread) (resp : Nat → Option Json)
    (rng : Nat → Nat) (B : Nat) :
    (pureSummarise threads resp rng B).progress =
      (pureBatches resp rng threads threads.length (chunksOf B threads) 0 0).progress := rfl

theorem fetch_threads_eq (listing : List RawItem) :
    fetch_threads listing = (listing.map rawToThread, listing.length) := by
  induction listing with
  | nil => rfl
  | cons p rest ih => simp only [fetch_threads, ih, List.map_cons, List.length_cons]

theorem generate_report_ok (genre : String) (threads : List Thread)
    (questions : List String) (user_prompt : String) (complete : List Msg → String)
    (h : ∀ t ∈ threads, ∃ fs, t.summary = some (Json.obj fs)) :
    generate_report genre threads questions user_prompt complete =
      .ok (ReportOutput.mk [reportMsgs genre threads questions user_prompt]
        (complete (reportMsgs genre threads questions user_prompt)) 1) := by
  unfold generate_report
  rw [corpusEntries_ok threads h]
  rfl

/-! ### The claims -/

/-- C3: for every thread list and batch size B of at least 1, and responses in
the two anticipated modes, summarise_threads partitions the list into exactly
the ceiling of n / B consecutive non-overlapping batches in input order
(their concatenation is the input, so every thread lies in exactly one
batch), each of size at most B, all but the last of size exactly B, and it
issues one model call per batch; an empty thread list yields zero calls. -/
theorem summarise_batch_partition (threads : List Thread) (resp : Nat → Option Json)
    (rng : Nat → Nat) (B : Nat) (hB : 1 ≤ B) (hresp : ∀ j, RespOk (resp j)) :
    ∃ out, summarise_threads threads resp rng B = .ok out ∧
      out.calls = (chunksOf B threads).map (fun c => c.map fun t => (t.id, excerpt t)) ∧
      out.calls.length = (threads.length + (B - 1)) / B ∧
      (chunksOf B threads).flatten = threads ∧
      (∀ c ∈ chunksOf B threads, c.length ≤ B ∧ c ≠ []) ∧
      (∀ c ∈ (chunksOf B threads).dropLast, c.length = B) ∧
      (threads = [] → out.calls = []) := by
  obtain ⟨B2, rfl⟩ : ∃ B2, B = B2 + 1 := ⟨B - 1, by omega⟩
  have hcalls : (pureSummarise threads resp rng (B2 + 1)).calls =
      (chunksOf (B2 + 1) threads).map (fun c => c.map fun t => (t.id, excerpt t)) := by
    rw [pureSummarise_calls, pureBatches_calls]
  refine ⟨pureSummarise threads resp rng (B2 + 1),
    summarise_threads_eq threads resp rng B2 hresp, hcalls, ?_, chunksOf_flatten B2 threads,
    ?_, chunksOf_dropLast_length B2 threads, ?_⟩
  · rw [hcalls, List.length_map, chunksOf_length B2 threads, Nat.add_sub_cancel]
  · intro c hc
    exact ⟨chunksOf_mem_length B2 threads c hc, chunksOf_mem_ne_nil B2 threads c hc⟩
  · intro h
    subst h
    rw [hcalls, chunksOf_nil]
    rfl

/-- C1: with every response either a decode failure or an object, a batch
whose response fails to decode is absorbed silently: the run still returns
normally, every batch still issues its model call, the thread list keeps its
length, and every thread of the failing batch (the threads at positions i
with i / B equal to the batch index) ends with the empty object summary. -/
theorem summarise_parse_failure_isolated (threads : List Thread) (resp : Nat → Option Json)
    (rng : Nat → Nat) (B k : Nat) (hB : 1 ≤ B) (hresp : ∀ j, RespOk (resp j))
    (hk : resp k = none) :
    ∃ out, summarise_threads threads resp rng B = .ok out ∧
      out.threads.length = threads.length ∧
      out.calls.length = (chunksOf B threads).length ∧
      ∀ i t, i / B = k → out.threads[i]? = some t → t.summary = some (Json.obj []) := by
  obtain ⟨B2, rfl⟩ : ∃ B2, B = B2 + 1 := ⟨B - 1, by omega⟩
  have hlen : (pureSummarise threads resp rng (B2 + 1)).threads.length = threads.length := by
    rw [pureSummarise_threads, pureBatches_threads_length, chunksOf_flatten]
  refine ⟨pureSummarise threads resp rng (B2 + 1),
    summarise_threads_eq threads resp rng B2 hresp, hlen, ?_, ?_⟩
  · rw [pureSummarise_calls, pureBatches_calls, List.length_map]
  · intro i t hik hsome
    have hi : i < threads.length := by
      obtain ⟨h1, -⟩ := List.getElem?_eq_some.mp hsome
      omega
    rw [pureSummarise_threads,
      pureBatches_threads_get B2 resp rng threads threads.length threads 0 0 i hi,
      Nat.zero_add, hik] at hsome
    obtain ⟨t0, ht0, hmap⟩ := Option.map_eq_some'.mp hsome
    rw [← hmap]
    simp [withSummaryFrom, hk, objGet]

/-- C8: summarise_threads enriches in place: the resulting list has the same
length, and at every position the id, title, body, comments, url and created
fields are unchanged; only the summary field is rewritten. -/
theorem summarise_frame (threads : List Thread) (resp : Nat → Option Json)
    (rng : Nat → Nat) (B : Nat) (hB : 1 ≤ B) (hresp : ∀ j, RespOk (resp j)) :
    ∃ out, summarise_threads threads resp rng B = .ok out ∧
      out.threads.length = threads.length ∧
      ∀ (i : Nat) (t t2 : Thread), threads[i]? = some t → out.threads[i]? = some t2 →
        t2.id = t.id ∧ t2.title = t.title ∧ t2.body = t.body ∧
        t2.comments = t.comments ∧ t2.url = t.url ∧ t2.created = t.created := by
  obtain ⟨B2, rfl⟩ : ∃ B2, B = B2 + 1 := ⟨B - 1, by omega⟩
  have hlen : (pureSummarise threads resp rng (B2 + 1)).threads.length = threads.length := by
    rw [pureSummarise_threads, pureBatches_threads_length, chunksOf_flatten]
  refine ⟨pureSummarise threads resp rng (B2 + 1),
    summarise_threads_eq threads resp rng B2 hresp, hlen, ?_⟩
  intro i t t2 ht hsome
  have hi : i < threads.length := by
    obtain ⟨h1, -⟩ := List.getElem?_eq_some.mp ht
    omega
  rw [pureSummarise_threads,
    pureBatches_threads_get B2 resp rng threads threads.length threads 0 0 i hi, ht] at hsome
  have h2 : t2 = withSummaryFrom resp (0 + i / (B2 + 1)) t := by
    simpa using hsome.symm
  subst h2
  simp [withSummaryFrom]

/-- C2: under responses in the two anticipated modes, after summarise_threads
every thread carries a summary value (possibly the empty object); a thread
whose id is missing from the decoded object of its batch gets the empty
object.  Moreover generate_report succeeds on any thread list whose
summaries are all objects, and a summary without a gist key contributes its
title with a blank gist to the corpus line. -/
theorem summaries_always_present (threads : List Thread) (resp : Nat → Option Json)
    (rng : Nat → Nat) (B : Nat) (hB : 1 ≤ B) (hresp : ∀ j, RespOk (resp j)) :
    ∃ out, summarise_threads threads resp rng B = .ok out ∧
      (∀ t2 ∈ out.threads, t2.summary ≠ none) ∧
      (∀ (i : Nat) (t2 : Thread) (fields : List (String × Json)),
        out.threads[i]? = some t2 →
        resp (i / B) = some (Json.obj fields) → (∀ p ∈ fields, p.1 ≠ t2.id) →
        t2.summary = some (Json.obj [])) ∧
      (∀ (genre : String) (threads2 : List Thread) (questions : List String)
          (user_prompt : String) (complete : List Msg → String),
        (∀ t ∈ threads2, ∃ fs, t.summary = some (Json.obj fs)) →
        ∃ rout, generate_report genre threads2 questions user_prompt complete = .ok rout ∧
          rout.report = complete (reportMsgs genre threads2 questions user_prompt)) ∧
      (∀ t2 : Thread, ∀ fields, t2.summary = some (Json.obj fields) →
        (∀ p ∈ fields, p.1 ≠ "gist") →
        corpusLine t2 = t2.title ++ " – " ++ "" ++ " [URL](" ++ t2.url ++ ")") := by
  obtain ⟨B2, rfl⟩ : ∃ B2, B = B2 + 1 := ⟨B - 1, by omega⟩
  refine ⟨pureSummarise threads resp rng (B2 + 1),
    summarise_threads_eq threads resp rng B2 hresp, ?_, ?_, ?_, ?_⟩
  · intro t2 hmem
    obtain ⟨i, hsome⟩ := List.mem_iff_getElem?.mp hmem
    have hi : i < threads.length := by
      obtain ⟨h1, -⟩ := List.getElem?_eq_some.mp hsome
      have hlen : (pureSummarise threads resp rng (B2 + 1)).threads.length = threads.length := by
        rw [pureSummarise_threads, pureBatches_threads_length, chunksOf_flatten]
      omega
    rw [pureSummarise_threads,
      pureBatches_threads_get B2 resp rng threads threads.length threads 0 0 i hi] at hsome
    obtain ⟨t0, ht0, hmap⟩ := Option.map_eq_some'.mp hsome
    rw [← hmap]
    simp [withSummaryFrom]
  · intro i t2 fields hsome hobj hmiss
    have hi : i < threads.length := by
      obtain ⟨h1, -⟩ := List.getElem?_eq_some.mp hsome
      have hlen : (pureSummarise threads resp rng (B2 + 1)).threads.length = threads.length := by
        rw [pureSummarise_threads, pureBatches_threads_length, chunksOf_flatten]
      omega
    rw [pureSummarise_threads,
      pureBatches_threads_get B2 resp rng threads threads.length threads 0 0 i hi,
      Nat.zero_add] at hsome
    obtain ⟨t0, ht0, hmap⟩ := Option.map_eq_some'.mp hsome
    have hid : t2.id = t0.id := by rw [← hmap]; simp [withSummaryFrom]
    have hfind : fields.find? (fun p => p.1 == t0.id) = none := by
      refine List.find?_eq_none.mpr fun p hp => ?_
      have := hmiss p hp
      rw [hid] at this
      simp only [Bool.not_eq_true]
      exact beq_eq_false_iff_ne.mpr this
    rw [← hmap]
    simp [withSummaryFrom, hobj, objGet, hfind]
  · intro genre threads2 questions user_prompt complete hall
    exact ⟨_, generate_report_ok genre threads2 questions user_prompt complete hall, rfl⟩
  · intro t2 fields hsum hnog
    have hfind : fields.find? (fun p => p.1 == "gist") = none := by
      refine List.find?_eq_none.mpr fun p hp => ?_
      simp only [Bool.not_eq_true]
      exact beq_eq_false_iff_ne.mpr (hnog p hp)
    simp [corpusLine, hsum, objGet, hfind, pyStr]

theorem chunksOf_two (B : Nat) (l : List Thread) (h : l.length = 2 * (B + 1)) :
    chunksOf (B + 1) l = [l.take (B + 1), (l.drop (B + 1)).take (B + 1)] := by
  have h1 : l ≠ [] := by
    intro he
    rw [he] at h
    simp at h
  rw [chunksOf_ne_nil_shape B l h1]
  have h2 : l.drop (B + 1) ≠ [] := by
    intro he
    have h3 := congrArg List.length he
    simp only [List.length_drop, List.length_nil] at h3
    omega
  rw [chunksOf_ne_nil_shape B _ h2]
  have h3 : (l.drop (B + 1)).drop (B + 1) = [] := by
    rw [List.drop_drop]
    exact List.drop_eq_nil_of_le (by omega)
  rw [h3, chunksOf_nil]

/-- C6: summarise_threads reports the fraction done / total after every
batch, where done counts the threads of the batches completed so far; in
particular twelve threads at batch size six give exactly two model calls and
the progress values one half and one. -/
theorem summarise_progress_fractions (threads : List Thread) (resp : Nat → Option Json)
    (rng : Nat → Nat) (B : Nat) (hB : 1 ≤ B) (hresp : ∀ j, RespOk (resp j)) :
    ∃ out, summarise_threads threads resp rng B = .ok out ∧
      out.progress = progressOf threads.length (chunksOf B threads) 0 ∧
      (∀ j : Nat, j < out.progress.length →
        out.progress[j]? =
          some (((((chunksOf B threads).take (j + 1)).flatten.length : Nat) : ℚ) /
            ((threads.length : Nat) : ℚ))) ∧
      (threads.length = 12 → B = 6 →
        out.calls.length = 2 ∧ out.progress = [(1 : ℚ) / 2, 1]) := by
  obtain ⟨B2, rfl⟩ : ∃ B2, B = B2 + 1 := ⟨B - 1, by omega⟩
  have hprog : (pureSummarise threads resp rng (B2 + 1)).progress =
      progressOf threads.length (chunksOf (B2 + 1) threads) 0 := by
    rw [pureSummarise_progress, pureBatches_progress]
  refine ⟨pureSummarise threads resp rng (B2 + 1),
    summarise_threads_eq threads resp rng B2 hresp, hprog, ?_, ?_⟩
  · intro j hj
    rw [hprog] at hj ⊢
    rw [progressOf_length] at hj
    rw [progressOf_get threads.length (chunksOf (B2 + 1) threads) 0 j hj, Nat.zero_add]
  · intro h12 hB6
    have hB2 : B2 = 5 := by omega
    subst hB2
    have h2 : chunksOf (5 + 1) threads =
        [threads.take (5 + 1), (threads.drop (5 + 1)).take (5 + 1)] :=
      chunksOf_two 5 threads (by omega)
    constructor
    · rw [pureSummarise_calls, pureBatches_calls, h2]
      rfl
    · rw [hprog, h2, h12]
      have hl1 : (threads.take (5 + 1)).length = 6 := by
        rw [List.length_take]
        omega
      have hl2 : ((threads.drop (5 + 1)).take (5 + 1)).length = 6 := by
        rw [List.length_take, List.length_drop]
        omega
      rw [progressOf_cons, progressOf_cons, hl1, hl2]
      norm_num [progressOf]

/-- C7: every entry of every payload summarise_threads sends maps the id of
one input thread to its full title followed by the first at most 4000
characters of its body and the first at most 6000 characters of its
concatenated comment text. -/
theorem excerpt_bounds (threads : List Thread) (resp : Nat → Option Json)
    (rng : Nat → Nat) (B : Nat) (hB : 1 ≤ B) (hresp : ∀ j, RespOk (resp j)) :
    ∃ out, summarise_threads threads resp rng B = .ok out ∧
      ∀ pl ∈ out.calls, ∀ p ∈ pl, ∃ t, t ∈ threads ∧
        p = (t.id, t.title ++ "\n\n" ++ pySlice t.body 4000 ++ "\n\nComments:\n" ++
          pySlice t.comments 6000) ∧
        (pySlice t.body 4000).length ≤ 4000 ∧ (pySlice t.comments 6000).length ≤ 6000 ∧
        (pySlice t.body 4000).data <+: t.body.data ∧
        (pySlice t.comments 6000).data <+: t.comments.data := by
  obtain ⟨B2, rfl⟩ : ∃ B2, B = B2 + 1 := ⟨B - 1, by omega⟩
  refine ⟨pureSummarise threads resp rng (B2 + 1),
    summarise_threads_eq threads resp rng B2 hresp, ?_⟩
  intro pl hpl p hp
  rw [pureSummarise_calls, pureBatches_calls] at hpl
  obtain ⟨c, hc, rfl⟩ := List.mem_map.mp hpl
  obtain ⟨t, ht, rfl⟩ := List.mem_map.mp hp
  refine ⟨t, ?_, rfl, pySlice_length_le _ _, pySlice_length_le _ _,
    pySlice_data_prefix _ _, pySlice_data_prefix _ _⟩
  have hmem : t ∈ (chunksOf (B2 + 1) threads).flatten := List.mem_flatten.mpr ⟨c, hc, ht⟩
  rwa [chunksOf_flatten] at hmem

/-- C4: whenever generate_report assembles its corpus, the string passed to
the model is the blank-line join of the per-thread lines cut to at most
15000 characters; the cut is applied to the joined string, a join already
within budget is passed unchanged, and full representation of threads is
closed downwards in input order: if the join of the first j+1 lines survives
the cut in full, so does the join of the first i+1 lines for every i at
most j. -/
theorem corpus_budget_and_order (threads : List Thread) (es : List String)
    (h : corpusEntries threads = .ok es) :
    (pySlice (pyJoin "\n\n" es) 15000).length ≤ 15000 ∧
    ((pyJoin "\n\n" es).length ≤ 15000 →
      pySlice (pyJoin "\n\n" es) 15000 = pyJoin "\n\n" es) ∧
    (∀ i j : Nat, i ≤ j →
      (pyJoin "\n\n" (es.take (j + 1))).data <+: (pySlice (pyJoin "\n\n" es) 15000).data →
      (pyJoin "\n\n" (es.take (i + 1))).data <+: (pySlice (pyJoin "\n\n" es) 15000).data) ∧
    (∀ (genre : String) (questions : List String) (user_prompt : String)
        (complete : List Msg → String),
      ∃ rout, generate_report genre threads questions user_prompt complete = .ok rout ∧
        ∃ qb : String, rout.calls = [[Msg.mk "system" (reportPrompt genre user_prompt),
          Msg.mk "assistant" ("CORPUS (" ++ toString threads.length ++ " threads):\n" ++
            pySlice (pyJoin "\n\n" es) 15000),
          Msg.mk "user" qb]]) := by
  refine ⟨pySlice_length_le _ _, pySlice_of_length_le _ _, ?_, ?_⟩
  · intro i j hij hj
    have h1 : es.take (i + 1) = (es.take (j + 1)).take (i + 1) := by
      rw [List.take_take]
      congr 1
      omega
    have h2 : (pyJoin "\n\n" ((es.take (j + 1)).take (i + 1))).data <+:
        (pyJoin "\n\n" (es.take (j + 1))).data := pyJoin_take_prefix _ _ _
    rw [h1]
    exact h2.trans hj
  · intro genre questions user_prompt complete
    unfold generate_report
    rw [h]
    exact ⟨_, rfl, qBlock questions, rfl⟩

/-- C5 counterexample: on a thread list containing a freshly fetched thread,
whose summary key is absent, generate_report raises KeyError before any model
call instead of issuing one call, so the claim fails for this input. -/
theorem generate_report_missing_summary_aborts :
    generate_report "horror" [exThreadA] ["q1"] "" (fun _ => "report") =
      .error PyError.keyError := rfl

/-- C5 amended: for every thread list in which each thread carries an object
summary (as after a well-formed summarise run), and any question list
including the empty one, generate_report issues exactly one model call and
returns the model text verbatim; with zero questions the user message is the
empty string and no error is raised. -/
theorem generate_report_single_call (genre : String) (threads : List Thread)
    (questions : List String) (user_prompt : String) (complete : List Msg → String)
    (h : ∀ t ∈ threads, ∃ fs, t.summary = some (Json.obj fs)) :
    ∃ rout, generate_report genre threads questions user_prompt complete = .ok rout ∧
      rout.calls.length = 1 ∧
      rout.calls = [reportMsgs genre threads questions user_prompt] ∧
      rout.report = complete (reportMsgs genre threads questions user_prompt) ∧
      rout.timerCalls = 1 ∧
      (questions = [] → reportMsgs genre threads questions user_prompt =
        [Msg.mk "system" (reportPrompt genre user_prompt),
         Msg.mk "assistant" ("CORPUS (" ++ toString threads.length ++ " threads):\n" ++
           pySlice (pyJoin "\n\n" (threads.map corpusLine)) 15000),
         Msg.mk "user" ""]) := by
  refine ⟨_, generate_report_ok genre threads questions user_prompt complete h,
    rfl, rfl, rfl, rfl, ?_⟩
  intro hq
  subst hq
  rfl

/-- C9: when the platform listing holds at most L submissions with pairwise
distinct ids in most-recent-first order, fetch_threads returns one record per
submission in the same order - hence at most L records, no duplicate ids and
descending creation stamps - and ticks the progress callback exactly once
per submission. -/
theorem fetch_threads_contract (listing : List RawItem) (L : Nat)
    (hlen : listing.length ≤ L)
    (hids : (listing.map RawItem.id).Nodup)
    (hord : listing.Pairwise fun a b => b.created_utc ≤ a.created_utc) :
    (fetch_threads listing).1.length ≤ L ∧
    (fetch_threads listing).1 = listing.map rawToThread ∧
    ((fetch_threads listing).1.map Thread.id).Nodup ∧
    ((fetch_threads listing).1.map Thread.created) =
      (listing.map RawItem.created_utc).map formatUtcDate ∧
    (listing.map RawItem.created_utc).Pairwise (fun a b : Int => b ≤ a) ∧
    (fetch_threads listing).2 = listing.length := by
  rw [fetch_threads_eq]
  refine ⟨by simpa using hlen, rfl, ?_, ?_, ?_, rfl⟩
  · show ((listing.map rawToThread).map Thread.id).Nodup
    rw [List.map_map]
    have hco : (Thread.id ∘ rawToThread) = RawItem.id := by
      funext p
      rfl
    rw [hco]
    exact hids
  · show (listing.map rawToThread).map Thread.created = _
    rw [List.map_map, List.map_map]
    rfl
  · exact List.pairwise_map.mpr hord

/-- C10: the batch handler absorbs only decode failures: when the response of
the first batch decodes to a JSON value that is not an object, such as a list
or a string, the per-thread lookup raises AttributeError outside the handler
and summarise_threads aborts with that error. -/
theorem nonobject_response_aborts (threads : List Thread) (resp : Nat → Option Json)
    (rng : Nat → Nat) (B : Nat) (v : Json) (hB : 1 ≤ B) (hne : threads ≠ [])
    (h0 : resp 0 = some v) (hv : ∀ fields, v ≠ Json.obj fields) :
    summarise_threads threads resp rng B = .error PyError.attributeError := by
  obtain ⟨B2, rfl⟩ : ∃ B2, B = B2 + 1 := ⟨B - 1, by omega⟩
  obtain ⟨a, t2, rfl⟩ : ∃ a t2, threads = a :: t2 := by
    cases threads with
    | nil => exact absurd rfl hne
    | cons a t2 => exact ⟨a, t2, rfl⟩
  unfold summarise_threads
  rw [if_neg (Nat.succ_ne_zero B2), chunksOf_cons]
  simp only [processBatches, h0, Option.getD_some, List.take_succ_cons, assignSummaries,
    dictGet_not_obj v hv]

/-! ### Witnesses: the claim theorems applied at concrete inputs -/

theorem summarise_parse_failure_isolated_witness :
    ∃ out, summarise_threads [exThreadA, exThreadB] (fun _ => none) (fun _ => 0) 1 = .ok out ∧
      out.threads.length = ([exThreadA, exThreadB] : List Thread).length ∧
      out.calls.length = (chunksOf 1 [exThreadA, exThreadB]).length ∧
      ∀ (i : Nat) (t : Thread), i / 1 = 0 → out.threads[i]? = some t →
        t.summary = some (Json.obj []) :=
  summarise_parse_failure_isolated [exThreadA, exThreadB] (fun _ => none) (fun _ => 0) 1 0
    (by decide) (fun j => Or.inl rfl) rfl

theorem summaries_always_present_witness :
    ∃ out, summarise_threads [exThreadA, exThreadB] (fun _ => none) (fun _ => 0) 1 = .ok out ∧
      (∀ t2 ∈ out.threads, t2.summary ≠ none) ∧
      (∀ (i : Nat) (t2 : Thread) (fields : List (String × Json)),
        out.threads[i]? = some t2 →
        (fun _ => (none : Option Json)) (i / 1) = some (Json.obj fields) →
        (∀ p ∈ fields, p.1 ≠ t2.id) →
        t2.summary = some (Json.obj [])) ∧
      (∀ (genre : String) (threads2 : List Thread) (questions : List String)
          (user_prompt : String) (complete : List Msg → String),
        (∀ t ∈ threads2, ∃ fs, t.summary = some (Json.obj fs)) →
        ∃ rout, generate_report genre threads2 questions user_prompt complete = .ok rout ∧
          rout.report = complete (reportMsgs genre threads2 questions user_prompt)) ∧
      (∀ t2 : Thread, ∀ fields, t2.summary = some (Json.obj fields) →
        (∀ p ∈ fields, p.1 ≠ "gist") →
        corpusLine t2 = t2.title ++ " – " ++ "" ++ " [URL](" ++ t2.url ++ ")") :=
  summaries_always_present [exThreadA, exThreadB] (fun _ => none) (fun _ => 0) 1
    (by decide) (fun j => Or.inl rfl)

theorem summarise_batch_partition_witness :
    ∃ out, summarise_threads [exThreadA, exThreadB] (fun _ => none) (fun _ => 0) 1 = .ok out ∧
      out.calls = (chunksOf 1 [exThreadA, exThreadB]).map
        (fun c => c.map fun t => (t.id, excerpt t)) ∧
      out.calls.length = (([exThreadA, exThreadB] : List Thread).length + (1 - 1)) / 1 ∧
      (chunksOf 1 [exThreadA, exThreadB]).flatten = [exThreadA, exThreadB] ∧
      (∀ c ∈ chunksOf 1 [exThreadA, exThreadB], c.length ≤ 1 ∧ c ≠ []) ∧
      (∀ c ∈ (chunksOf 1 [exThreadA, exThreadB]).dropLast, c.length = 1) ∧
      (([exThreadA, exThreadB] : List Thread) = [] → out.calls = []) :=
  summarise_batch_partition [exThreadA, exThreadB] (fun _ => none) (fun _ => 0) 1
    (by decide) (fun j => Or.inl rfl)

theorem corpus_budget_and_order_witness :
    (pySlice (pyJoin "\n\n" ["TitleA –  [URL](urlA)"]) 15000).length ≤ 15000 ∧
    ((pyJoin "\n\n" ["TitleA –  [URL](urlA)"]).length ≤ 15000 →
      pySlice (pyJoin "\n\n" ["TitleA –  [URL](urlA)"]) 15000 =
        pyJoin "\n\n" ["TitleA –  [URL](urlA)"]) ∧
    (∀ i j : Nat, i ≤ j →
      (pyJoin "\n\n" (["TitleA –  [URL](urlA)"].take (j + 1))).data <+:
        (pySlice (pyJoin "\n\n" ["TitleA –  [URL](urlA)"]) 15000).data →
      (pyJoin "\n\n" (["TitleA –  [URL](urlA)"].take (i + 1))).data <+:
        (pySlice (pyJoin "\n\n" ["TitleA –  [URL](urlA)"]) 15000).data) ∧
    (∀ (genre : String) (questions : List String) (user_prompt : String)
        (complete : List Msg → String),
      ∃ rout, generate_report genre [exDone] questions user_prompt complete = .ok rout ∧
        ∃ qb : String, rout.calls = [[Msg.mk "system" (reportPrompt genre user_prompt),
          Msg.mk "assistant" ("CORPUS (" ++ toString ([exDone] : List Thread).length ++
            " threads):\n" ++ pySlice (pyJoin "\n\n" ["TitleA –  [URL](urlA)"]) 15000),
          Msg.mk "user" qb]]) :=
  corpus_budget_and_order [exDone] ["TitleA –  [URL](urlA)"] rfl

theorem generate_report_single_call_witness :
    ∃ rout, generate_report "horror" [exDone] [] "" (fun _ => "report") = .ok rout ∧
      rout.calls.length = 1 ∧
      rout.calls = [reportMsgs "horror" [exDone] [] ""] ∧
      rout.report = (fun _ => "report") (reportMsgs "horror" [exDone] [] "") ∧
      rout.timerCalls = 1 ∧
      (([] : List String) = [] → reportMsgs "horror" [exDone] [] "" =
        [Msg.mk "system" (reportPrompt "horror" ""),
         Msg.mk "assistant" ("CORPUS (" ++ toString ([exDone] : List Thread).length ++
           " threads):\n" ++ pySlice (pyJoin "\n\n" ([exDone].map corpusLine)) 15000),
         Msg.mk "user" ""]) :=
  generate_report_single_call "horror" [exDone] [] "" (fun _ => "report")
    (by
      intro t ht
      rw [List.mem_singleton] at ht
      subst ht
      exact ⟨[], rfl⟩)

theorem summarise_progress_fractions_witness :
    ∃ out, summarise_threads exTwelve (fun _ => none) (fun _ => 0) 6 = .ok out ∧
      out.progress = progressOf exTwelve.length (chunksOf 6 exTwelve) 0 ∧
      (∀ j : Nat, j < out.progress.length →
        out.progress[j]? =
          some (((((chunksOf 6 exTwelve).take (j + 1)).flatten.length : Nat) : ℚ) /
            ((exTwelve.length : Nat) : ℚ))) ∧
      (exTwelve.length = 12 → 6 = 6 →
        out.calls.length = 2 ∧ out.progress = [(1 : ℚ) / 2, 1]) :=
  summarise_progress_fractions exTwelve (fun _ => none) (fun _ => 0) 6
    (by decide) (fun j => Or.inl rfl)

theorem excerpt_bounds_witness :
    ∃ out, summarise_threads [exThreadA, exThreadB] (fun _ => none) (fun _ => 0) 1 = .ok out ∧
      ∀ pl ∈ out.calls, ∀ p ∈ pl, ∃ t, t ∈ ([exThreadA, exThreadB] : List Thread) ∧
        p = (t.id, t.title ++ "\n\n" ++ pySlice t.body 4000 ++ "\n\nComments:\n" ++
          pySlice t.comments 6000) ∧
        (pySlice t.body 4000).length ≤ 4000 ∧ (pySlice t.comments 6000).length ≤ 6000 ∧
        (pySlice t.body 4000).data <+: t.body.data ∧
        (pySlice t.comments 6000).data <+: t.comments.data :=
  excerpt_bounds [exThreadA, exThreadB] (fun _ => none) (fun _ => 0) 1
    (by decide) (fun j => Or.inl rfl)

theorem summarise_frame_witness :
    ∃ out, summarise_threads [exThreadA, exThreadB] (fun _ => none) (fun _ => 0) 1 = .ok out ∧
      out.threads.length = ([exThreadA, exThreadB] : List Thread).length ∧
      ∀ (i : Nat) (t t2 : Thread), ([exThreadA, exThreadB] : List Thread)[i]? = some t →
        out.threads[i]? = some t2 →
        t2.id = t.id ∧ t2.title = t.title ∧ t2.body = t.body ∧
        t2.comments = t.comments ∧ t2.url = t.url ∧ t2.created = t.created :=
  summarise_frame [exThreadA, exThreadB] (fun _ => none) (fun _ => 0) 1
    (by decide) (fun j => Or.inl rfl)

theorem fetch_threads_contract_witness :
    (fetch_threads [exRaw1, exRaw2]).1.length ≤ 2 ∧
    (fetch_threads [exRaw1, exRaw2]).1 = [exRaw1, exRaw2].map rawToThread ∧
    ((fetch_threads [exRaw1, exRaw2]).1.map Thread.id).Nodup ∧
    ((fetch_threads [exRaw1, exRaw2]).1.map Thread.created) =
      ([exRaw1, exRaw2].map RawItem.created_utc).map formatUtcDate ∧
    ([exRaw1, exRaw2].map RawItem.created_utc).Pairwise (fun a b : Int => b ≤ a) ∧
    (fetch_threads [exRaw1, exRaw2]).2 = ([exRaw1, exRaw2] : List RawItem).length :=
  fetch_threads_contract [exRaw1, exRaw2] 2 (by decide) (by decide) (by decide)

theorem nonobject_response_aborts_witness :
    summarise_threads [exThreadA] (fun _ => some (Json.arr [])) (fun _ => 0) 1 =
      .error PyError.attributeError :=
  nonobject_response_aborts [exThreadA] (fun _ => some (Json.arr [])) (fun _ => 0) 1
    (Json.arr []) (by decide) (List.cons_ne_nil exThreadA []) rfl
    (fun fields h => nomatch h)
